import Mathlib

/-!
Verification of the `node2object` XML-to-JSON converter (`src/lib.rs`).

The source converts a `treexml::Element` tree into a `serde_json` value.
We shallowly embed the code:

* `Element` models `treexml::Element` restricted to the fields the code
  reads: `name`, `attributes`, `text`, `cdata`, `children`.  The attribute
  map is modelled as an association list with unique raw keys; the JSON
  object (`serde_json::Map`) is modelled as an association list `Obj` with
  `insertKV` replacing an existing binding in place (the map semantics of
  `BTreeMap::insert`; key lookup via `getKV` is what the theorems use, so
  the physical ordering of bindings is never relied upon).
* JSON numbers are `serde_json::Number` values obtained via
  `Number::from_f64`, which rejects NaN and infinities.  Rust's
  `str::parse::<f64>` is modelled by `parseF64`: the accepted grammar is
  that of `f64::from_str` (optional sign; `inf` / `infinity` / `nan`
  case-insensitively; otherwise a decimal mantissa with optional
  exponent).  A parsed numeric literal is kept as an exact rational
  (rounding to the nearest double is not modelled); literals whose
  magnitude reaches the IEEE-754 binary64 overflow threshold
  `2^1024 - 2^970` round to infinity and are therefore non-finite.
* `to_snake_case` comes from the external `inflector` crate; the code
  treats it as an opaque pure function, so the embedding takes it as an
  explicit parameter `sc`.
* The `unwrap` calls on the append path of the parent fold
  (`data.get_mut(..).unwrap().as_array_mut().unwrap()`) can panic;
  `convert_node_aux` therefore returns a `FoldResult` with an explicit
  `panic` outcome (`pushAt` returns `none` exactly when an `unwrap`
  would panic), and `node2object` propagates a panic as `none`.
-/

namespace Node2Object

/-- JSON values (`serde_json::Value`); numbers are modelled as exact
rationals (only finite doubles are representable in `serde_json`). -/
inductive Value where
  | null
  | bool (b : Bool)
  | number (q : ℚ)
  | str (s : String)
  | arr (elems : List Value)
  | obj (fields : List (String × Value))

/-- A JSON object (`serde_json::Map<String, Value>`) as an association
list. -/
abbrev Obj := List (String × Value)

/-- Map insertion: replace the binding in place when the key is present,
append otherwise (the observable semantics of `Map::insert`). -/
def insertKV : Obj → String → Value → Obj
  | [], k, v => [(k, v)]
  | (k', v') :: rest, k, v =>
    if k' = k then (k, v) :: rest else (k', v') :: insertKV rest k v

/-- Map lookup (`Map::get`). -/
def getKV : Obj → String → Option Value
  | [], _ => none
  | (k', v') :: rest, k => if k' = k then some v' else getKV rest k

/-- Outcome of `f64::from_str` composed with `Number::from_f64`: either a
finite value or a non-finite one (NaN / ±infinity), which
`Number::from_f64` rejects. -/
inductive F64 where
  | finite (q : ℚ)
  | nonfinite
deriving DecidableEq

/-- Smallest magnitude at which rounding a real to the nearest binary64
yields infinity. -/
def f64OverflowBound : ℚ := 2 ^ 1024 - 2 ^ 970

/-- Classify an exactly-represented parsed literal as a finite double or
an overflow to infinity. -/
def mkF64 (q : ℚ) : F64 :=
  if f64OverflowBound ≤ |q| then F64.nonfinite else F64.finite q

/-- Numeric value of a digit character. -/
def digitVal (c : Char) : ℕ := c.toNat - Char.toNat '0'

/-- Value of a digit string read in base 10. -/
def digitsToNat (cs : List Char) : ℕ :=
  cs.foldl (fun acc c => acc * 10 + digitVal c) 0

/-- Split a character list at the first occurrence of `c`; `none` when
`c` does not occur. -/
def splitFirst (c : Char) : List Char → Option (List Char × List Char)
  | [] => none
  | x :: xs =>
    if x = c then some ([], xs)
    else (splitFirst c xs).map fun p => (x :: p.1, p.2)

/-- Mantissa of the `f64::from_str` grammar:
`Digit+ | Digit+ '.' Digit* | Digit* '.' Digit+`. -/
def parseMantissa (cs : List Char) : Option ℚ :=
  match splitFirst '.' cs with
  | none =>
    if cs ≠ [] ∧ cs.all Char.isDigit then some (digitsToNat cs : ℚ) else none
  | some (ip, fp) =>
    if (ip ≠ [] ∨ fp ≠ []) ∧ ip.all Char.isDigit ∧ fp.all Char.isDigit then
      some ((digitsToNat ip : ℚ) + (digitsToNat fp : ℚ) / (10 : ℚ) ^ fp.length)
    else none

/-- Exponent of the `f64::from_str` grammar: `Sign? Digit+`. -/
def parseExponent (cs : List Char) : Option ℤ :=
  match cs with
  | '+' :: ds => if ds ≠ [] ∧ ds.all Char.isDigit then some (digitsToNat ds : ℤ) else none
  | '-' :: ds => if ds ≠ [] ∧ ds.all Char.isDigit then some (-(digitsToNat ds : ℤ)) else none
  | ds => if ds ≠ [] ∧ ds.all Char.isDigit then some (digitsToNat ds : ℤ) else none

/-- ASCII lower-casing of one character (the special float tokens are
matched ASCII-case-insensitively by `f64::from_str`). -/
def asciiLower (c : Char) : Char :=
  if 'A' ≤ c ∧ c ≤ 'Z' then Char.ofNat (c.toNat + 32) else c

/-- Model of `text.parse::<f64>()` followed by `Number::from_f64`:
`none` when the string is not in the float grammar, `some .nonfinite`
for NaN / infinity tokens and overflowing literals, `some (.finite q)`
otherwise. -/
def parseF64 (s : String) : Option F64 :=
  let cs := s.toList.map asciiLower
  let sgn : ℚ × List Char :=
    match cs with
    | '+' :: rest => (1, rest)
    | '-' :: rest => (-1, rest)
    | _ => (1, cs)
  if sgn.2 = ['i', 'n', 'f'] ∨ sgn.2 = ['i', 'n', 'f', 'i', 'n', 'i', 't', 'y'] ∨
      sgn.2 = ['n', 'a', 'n'] then
    some F64.nonfinite
  else
    match splitFirst 'e' sgn.2 with
    | none => (parseMantissa sgn.2).map fun m => mkF64 (sgn.1 * m)
    | some (mant, ex) => do
      let m ← parseMantissa mant
      let p ← parseExponent ex
      some (mkF64 (sgn.1 * m * (10 : ℚ) ^ p))

/-- `parse_text` (src/lib.rs:85): try float (finite only), then `bool`
via exact `"true"` / `"false"` matching, then fall back to the original
string. -/
def parse_text (text : String) : Value :=
  match parseF64 text with
  | some (F64.finite q) => Value.number q
  | _ =>
    if text = "true" then Value.bool true
    else if text = "false" then Value.bool false
    else Value.str text

/-- `treexml::Element` restricted to the fields the converter reads
(`prefix`/namespace data is never touched by the code and is omitted). -/
inductive Element where
  | mk (name : String) (attributes : List (String × String))
      (text : Option String) (cdata : Option String) (children : List Element)

/-- Element name. -/
def Element.name : Element → String
  | .mk n _ _ _ _ => n

/-- Element attribute map. -/
def Element.attributes : Element → List (String × String)
  | .mk _ a _ _ _ => a

/-- Direct text content. -/
def Element.text : Element → Option String
  | .mk _ _ t _ _ => t

/-- CDATA content. -/
def Element.cdata : Element → Option String
  | .mk _ _ _ c _ => c

/-- Ordered child list. -/
def Element.children : Element → List Element
  | .mk _ _ _ _ cs => cs

/-- The six structural shapes (`XMLNodeType`, src/lib.rs:51). -/
inductive XMLNodeType where
  | Empty
  | Text
  | Attributes
  | TextAndAttributes
  | Parent
  | SemiStructured
deriving DecidableEq

/-- `scan_xml_node` (src/lib.rs:61): classify an element by presence of
children, text/CDATA and attributes. -/
def scan_xml_node (e : Element) : XMLNodeType :=
  if e.children.isEmpty then
    if e.text.isNone && e.cdata.isNone then
      if e.attributes.isEmpty then XMLNodeType.Empty else XMLNodeType.Attributes
    else
      if e.attributes.isEmpty then XMLNodeType.Text else XMLNodeType.TextAndAttributes
  else
    if e.text.isSome || e.cdata.isSome then XMLNodeType.SemiStructured
    else XMLNodeType.Parent

/-- `parse_text_contents` (src/lib.rs:106): direct text immediately
followed by CDATA, a missing part contributing the empty string. -/
def parse_text_contents (e : Element) : Value :=
  parse_text ((e.text.getD "") ++ (e.cdata.getD ""))

/-- Fold of the attribute map into a fresh JSON object: each attribute is
inserted under its snake-cased name with `parse_text` applied to the raw
value (src/lib.rs:121-125 and the `collect()` calls at 153-167). -/
def attrsToObj (sc : String → String) (attrs : List (String × String)) : Obj :=
  attrs.foldl (fun m kv => insertKV m (sc kv.1) (parse_text kv.2)) []

/-- Key a child contributes under in a parent fold: the snake-cased name,
with `"option"` remapped to `"option_tag"` (src/lib.rs:129-135). -/
def childKey (sc : String → String) (c : Element) : String :=
  let n := sc c.name
  if n = "option" then "option_tag" else n

/-- The append path of the parent fold
(`data.get_mut(&name).unwrap().as_array_mut().unwrap().push(v)`,
src/lib.rs:140-144): `none` models the panic of either `unwrap`. -/
def pushAt (data : Obj) (k : String) (v : Value) : Option Obj :=
  match getKV data k with
  | some (Value.arr vs) => some (insertKV data k (Value.arr (vs ++ [v])))
  | _ => none

/-- Result of `convert_node_aux`: the source's `Option<Value>` plus an
explicit outcome for a panicking `unwrap`. -/
inductive FoldResult where
  | panic
  | dropped
  | value (v : Value)

mutual

/-- `convert_node_aux` (src/lib.rs:115): fold one element into an
optional JSON value; the catch-all arm of the source `match` sends both
`Empty` and `SemiStructured` to `None` (`dropped`). -/
def convert_node_aux (sc : String → String) (e : Element) : FoldResult :=
  match scan_xml_node e with
  | XMLNodeType.Parent =>
    (match convertChildren sc e.children (attrsToObj sc e.attributes) [] with
     | some data => FoldResult.value (Value.obj data)
     | none => FoldResult.panic)
  | XMLNodeType.Text => FoldResult.value (parse_text_contents e)
  | XMLNodeType.Attributes =>
    FoldResult.value (Value.obj (attrsToObj sc e.attributes))
  | XMLNodeType.TextAndAttributes =>
    FoldResult.value (Value.obj
      (insertKV (attrsToObj sc e.attributes) "text" (parse_text_contents e)))
  | _ => FoldResult.dropped
termination_by sizeOf e
decreasing_by
  cases e with
  | mk n a t c cs => simp [Element.children]

/-- The child loop of the parent fold (src/lib.rs:126-149): `vectorized`
is the set of child keys already holding an array; a key not yet seen
gets a fresh one-element array, a seen key has the child value pushed
onto its array; `none` models a panic bubbling up. -/
def convertChildren (sc : String → String) (cs : List Element) (data : Obj)
    (vectorized : List String) : Option Obj :=
  match cs with
  | [] => some data
  | c :: rest =>
    match convert_node_aux sc c with
    | FoldResult.value v =>
      if !vectorized.contains (childKey sc c) then
        convertChildren sc rest
          (insertKV data (childKey sc c) (Value.arr [v]))
          (childKey sc c :: vectorized)
      else
        match pushAt data (childKey sc c) v with
        | some data' => convertChildren sc rest data' vectorized
        | none => none
    | FoldResult.dropped => convertChildren sc rest data vectorized
    | FoldResult.panic => none
termination_by sizeOf cs
decreasing_by
  all_goals simp
  all_goals omega

end

/-- `node2object` (src/lib.rs:173): wrap the folded root under its
snake-cased name, `None` (`dropped`) becoming `Null`; a panic in the
fold propagates as `none`. -/
def node2object (sc : String → String) (e : Element) : Option Obj :=
  match convert_node_aux sc e with
  | FoldResult.panic => none
  | FoldResult.dropped => some [(sc e.name, Value.null)]
  | FoldResult.value v => some [(sc e.name, v)]

/-- The folded values of the children of a parent that share the
contributed key `n`, in original sibling order (dropped children
contribute nothing). -/
def childValues (sc : String → String) (cs : List Element) (n : String) : List Value :=
  cs.filterMap fun c =>
    match convert_node_aux sc c with
    | FoldResult.value v => if childKey sc c = n then some v else none
    | _ => none






/-- A leaf element holding only direct text. -/
def textElem (nm t : String) : Element := Element.mk nm [] (some t) none []

/-- Example: a parent whose children are named `b`, `b`, `c`. -/
def exArrayify : Element :=
  Element.mk "a" [] none none [textElem "b" "x", textElem "b" "y", textElem "c" "z"]

/-- Example: an element with no children, no text, no CDATA, no attributes. -/
def exEmpty : Element := Element.mk "e" [] none none []

/-- Example: a SemiStructured element (children together with text). -/
def exSemi : Element := Element.mk "b" [] (some "t") none [exEmpty]

/-- Example: a parent with no attributes whose only child is SemiStructured. -/
def exFiltered : Element := Element.mk "a" [] none none [exSemi]

/-- Example: text and attributes together, one attribute normalizing to `text`. -/
def exTextAttrs : Element :=
  Element.mk "player" [("text", "shadowed"), ("score", "high")] (some "Kolya") none []

/-- Example: a text element carrying both direct text and CDATA. -/
def exTextCData : Element := Element.mk "x" [] (some "ab") (some "cd") []

/-- Example: a parent with a single child named `option`. -/
def exOption : Element := Element.mk "cfg" [] none none [textElem "option" "on"]

/-- Example: a parent whose attribute `b` collides with a child named `b`. -/
def exShadow : Element := Element.mk "a" [("b", "w")] none none [textElem "b" "x"]

/-- Example: an Empty child named `b`. -/
def exEmptyChild : Element := Element.mk "b" [] none none []

/-- Example: a parent whose only child is the Empty element `exEmptyChild`. -/
def exEmptyChildParent : Element := Element.mk "a" [] none none [exEmptyChild]

/-- Example: a parent whose attribute `b` collides with an Empty child named `b`. -/
def exShadowEmpty : Element := Element.mk "a" [("b", "w")] none none [exEmptyChild]

theorem getKV_insertKV (m : Obj) (k n : String) (v : Value) :
    getKV (insertKV m k v) n = if k = n then some v else getKV m n := by
  induction m with
  | nil => simp [insertKV, getKV]
  | cons hd tl ih =>
    obtain ⟨k', v'⟩ := hd
    by_cases h1 : k' = k
    · subst h1
      simp only [insertKV, if_pos rfl, getKV]
      by_cases h2 : k' = n
      · simp [h2]
      · simp [h2]
    · simp only [insertKV, if_neg h1, getKV]
      by_cases h2 : k' = n
      · subst h2
        have hkn : ¬k = k' := fun h => h1 h.symm
        simp [getKV, hkn]
      · simp [getKV, h2, ih]

theorem convertChildren_nil (sc : String → String) (data : Obj) (vec : List String) :
    convertChildren sc [] data vec = some data := by
  simp [convertChildren]

theorem convertChildren_cons_panic (sc : String → String) (c : Element) (rest : List Element)
    (data : Obj) (vec : List String) (h : convert_node_aux sc c = FoldResult.panic) :
    convertChildren sc (c :: rest) data vec = none := by
  rw [convertChildren]
  rw [h]

theorem convertChildren_cons_dropped (sc : String → String) (c : Element) (rest : List Element)
    (data : Obj) (vec : List String) (h : convert_node_aux sc c = FoldResult.dropped) :
    convertChildren sc (c :: rest) data vec = convertChildren sc rest data vec := by
  rw [convertChildren]
  rw [h]

theorem convertChildren_cons_new (sc : String → String) (c : Element) (rest : List Element)
    (data : Obj) (vec : List String) (v : Value) (h : convert_node_aux sc c = FoldResult.value v)
    (hk : childKey sc c ∉ vec) :
    convertChildren sc (c :: rest) data vec =
      convertChildren sc rest (insertKV data (childKey sc c) (Value.arr [v]))
        (childKey sc c :: vec) := by
  rw [convertChildren]
  rw [h]
  simp [hk]

theorem convertChildren_cons_seen (sc : String → String) (c : Element) (rest : List Element)
    (data : Obj) (vec : List String) (v : Value) (vs : List Value)
    (h : convert_node_aux sc c = FoldResult.value v) (hk : childKey sc c ∈ vec)
    (hg : getKV data (childKey sc c) = some (Value.arr vs)) :
    convertChildren sc (c :: rest) data vec =
      convertChildren sc rest (insertKV data (childKey sc c) (Value.arr (vs ++ [v]))) vec := by
  rw [convertChildren]
  rw [h]
  simp [hk, pushAt, hg]

theorem childValues_nil (sc : String → String) (n : String) : childValues sc [] n = [] := rfl

theorem childValues_cons_dropped (sc : String → String) (c : Element) (rest : List Element)
    (n : String) (h : convert_node_aux sc c = FoldResult.dropped) :
    childValues sc (c :: rest) n = childValues sc rest n := by
  simp [childValues, List.filterMap_cons, h]

theorem childValues_cons_panic (sc : String → String) (c : Element) (rest : List Element)
    (n : String) (h : convert_node_aux sc c = FoldResult.panic) :
    childValues sc (c :: rest) n = childValues sc rest n := by
  simp [childValues, List.filterMap_cons, h]

theorem childValues_cons_value (sc : String → String) (c : Element) (rest : List Element)
    (n : String) (v : Value) (h : convert_node_aux sc c = FoldResult.value v) :
    childValues sc (c :: rest) n =
      if childKey sc c = n then v :: childValues sc rest n else childValues sc rest n := by
  by_cases hkn : childKey sc c = n
  · simp [childValues, List.filterMap_cons, h, hkn]
  · simp [childValues, List.filterMap_cons, h, hkn]


theorem convertChildren_spec (sc : String → String) (cs : List Element) (data : Obj)
    (vec : List String)
    (hnp : ∀ c ∈ cs, convert_node_aux sc c ≠ FoldResult.panic)
    (hv : ∀ n ∈ vec, ∃ vs, getKV data n = some (Value.arr vs)) :
    ∃ d, convertChildren sc cs data vec = some d ∧
      (∀ n vs, n ∈ vec → getKV data n = some (Value.arr vs) →
        getKV d n = some (Value.arr (vs ++ childValues sc cs n))) ∧
      (∀ n, n ∉ vec → childValues sc cs n = [] → getKV d n = getKV data n) ∧
      (∀ n, n ∉ vec → childValues sc cs n ≠ [] →
        getKV d n = some (Value.arr (childValues sc cs n))) := by
  induction cs generalizing data vec with
  | nil =>
    refine ⟨data, convertChildren_nil sc data vec, ?_, ?_, ?_⟩
    · intro n vs _ hg
      simpa [childValues_nil] using hg
    · intro n _ _
      rfl
    · intro n _ hne
      exact absurd (childValues_nil sc n) hne
  | cons c rest ih =>
    cases hr : convert_node_aux sc c with
    | panic => exact absurd hr (hnp c (List.mem_cons_self c rest))
    | dropped =>
      obtain ⟨d, hd, P1, P2, P3⟩ :=
        ih data vec (fun x hx => hnp x (List.mem_cons_of_mem c hx)) hv
      refine ⟨d, ?_, ?_, ?_, ?_⟩
      · rw [convertChildren_cons_dropped sc c rest data vec hr]
        exact hd
      · intro n vs h1 h2
        rw [childValues_cons_dropped sc c rest n hr]
        exact P1 n vs h1 h2
      · intro n h1 h2
        rw [childValues_cons_dropped sc c rest n hr] at h2
        exact P2 n h1 h2
      · intro n h1 h2
        rw [childValues_cons_dropped sc c rest n hr] at h2 ⊢
        exact P3 n h1 h2
    | value v =>
      have hnp' : ∀ x ∈ rest, convert_node_aux sc x ≠ FoldResult.panic :=
        fun x hx => hnp x (List.mem_cons_of_mem c hx)
      by_cases hk : childKey sc c ∈ vec
      · obtain ⟨vs₀, hvs₀⟩ := hv _ hk
        have hv' : ∀ n ∈ vec, ∃ vs,
            getKV (insertKV data (childKey sc c) (Value.arr (vs₀ ++ [v]))) n =
              some (Value.arr vs) := by
          intro n hn
          rw [getKV_insertKV]
          by_cases he : childKey sc c = n
          · exact ⟨vs₀ ++ [v], by simp [he]⟩
          · obtain ⟨vs, hvs⟩ := hv n hn
            exact ⟨vs, by simp [he, hvs]⟩
        obtain ⟨d, hd, P1, P2, P3⟩ :=
          ih (insertKV data (childKey sc c) (Value.arr (vs₀ ++ [v]))) vec hnp' hv'
        refine ⟨d, ?_, ?_, ?_, ?_⟩
        · rw [convertChildren_cons_seen sc c rest data vec v vs₀ hr hk hvs₀]
          exact hd
        · intro n vs h1 h2
          rw [childValues_cons_value sc c rest n v hr]
          by_cases he : childKey sc c = n
          · have hvv : vs = vs₀ := by
              rw [he] at hvs₀
              rw [hvs₀] at h2
              injection h2 with h2
              injection h2 with h2
              exact h2.symm
            have hP := P1 n (vs₀ ++ [v]) h1 (by rw [getKV_insertKV]; simp [he])
            rw [if_pos he, hvv, hP]
            simp
          · have hP := P1 n vs h1 (by rw [getKV_insertKV]; simp [he, h2])
            rw [if_neg he]
            exact hP
        · intro n h1 h2
          have hne : childKey sc c ≠ n := fun h => h1 (h ▸ hk)
          rw [childValues_cons_value sc c rest n v hr, if_neg hne] at h2
          have hP := P2 n h1 h2
          rw [hP, getKV_insertKV, if_neg hne]
        · intro n h1 h2
          have hne : childKey sc c ≠ n := fun h => h1 (h ▸ hk)
          rw [childValues_cons_value sc c rest n v hr, if_neg hne] at h2 ⊢
          exact P3 n h1 h2
      · have hv' : ∀ n ∈ childKey sc c :: vec, ∃ vs,
            getKV (insertKV data (childKey sc c) (Value.arr [v])) n =
              some (Value.arr vs) := by
          intro n hn
          rw [getKV_insertKV]
          by_cases he : childKey sc c = n
          · exact ⟨[v], by simp [he]⟩
          · obtain ⟨vs, hvs⟩ := hv n (by
              rcases List.mem_cons.mp hn with h | h
              · exact absurd h.symm he
              · exact h)
            exact ⟨vs, by simp [he, hvs]⟩
        obtain ⟨d, hd, P1, P2, P3⟩ :=
          ih (insertKV data (childKey sc c) (Value.arr [v])) (childKey sc c :: vec) hnp' hv'
        refine ⟨d, ?_, ?_, ?_, ?_⟩
        · rw [convertChildren_cons_new sc c rest data vec v hr hk]
          exact hd
        · intro n vs h1 h2
          have hne : childKey sc c ≠ n := fun h => hk (h ▸ h1)
          rw [childValues_cons_value sc c rest n v hr, if_neg hne]
          exact P1 n vs (List.mem_cons_of_mem _ h1) (by rw [getKV_insertKV, if_neg hne]; exact h2)
        · intro n h1 h2
          by_cases he : childKey sc c = n
          · rw [childValues_cons_value sc c rest n v hr, if_pos he] at h2
            exact absurd h2 (by simp)
          · rw [childValues_cons_value sc c rest n v hr, if_neg he] at h2
            have hn' : n ∉ childKey sc c :: vec := by
              simp only [List.mem_cons]
              rintro (h | h)
              · exact he h.symm
              · exact h1 h
            have hP := P2 n hn' h2
            rw [hP, getKV_insertKV, if_neg he]
        · intro n h1 h2
          by_cases he : childKey sc c = n
          · have hP := P1 n [v] (by simp [he]) (by rw [getKV_insertKV, if_pos he])
            rw [childValues_cons_value sc c rest n v hr, if_pos he]
            simpa using hP
          · rw [childValues_cons_value sc c rest n v hr, if_neg he] at h2 ⊢
            have hn' : n ∉ childKey sc c :: vec := by
              simp only [List.mem_cons]
              rintro (h | h)
              · exact he h.symm
              · exact h1 h
            exact P3 n hn' h2


theorem sizeOf_lt_of_mem_children (c e : Element) (h : c ∈ e.children) : sizeOf c < sizeOf e := by
  cases e with
  | mk nm a t cd cs =>
    simp only [Element.children] at h
    have := List.sizeOf_lt_of_mem h
    simp only [Element.mk.sizeOf_spec]
    omega

theorem convert_node_aux_empty (sc : String → String) (e : Element)
    (h : scan_xml_node e = XMLNodeType.Empty) : convert_node_aux sc e = FoldResult.dropped := by
  rw [convert_node_aux]
  rw [h]

theorem convert_node_aux_semi (sc : String → String) (e : Element)
    (h : scan_xml_node e = XMLNodeType.SemiStructured) :
    convert_node_aux sc e = FoldResult.dropped := by
  rw [convert_node_aux]
  rw [h]

theorem convert_node_aux_text (sc : String → String) (e : Element)
    (h : scan_xml_node e = XMLNodeType.Text) :
    convert_node_aux sc e = FoldResult.value (parse_text_contents e) := by
  rw [convert_node_aux]
  rw [h]

theorem convert_node_aux_attributes (sc : String → String) (e : Element)
    (h : scan_xml_node e = XMLNodeType.Attributes) :
    convert_node_aux sc e = FoldResult.value (Value.obj (attrsToObj sc e.attributes)) := by
  rw [convert_node_aux]
  rw [h]

theorem convert_node_aux_text_and_attributes (sc : String → String) (e : Element)
    (h : scan_xml_node e = XMLNodeType.TextAndAttributes) :
    convert_node_aux sc e = FoldResult.value (Value.obj
      (insertKV (attrsToObj sc e.attributes) "text" (parse_text_contents e))) := by
  rw [convert_node_aux]
  rw [h]

theorem convert_node_aux_parent_some (sc : String → String) (e : Element) (d : Obj)
    (h : scan_xml_node e = XMLNodeType.Parent)
    (hcc : convertChildren sc e.children (attrsToObj sc e.attributes) [] = some d) :
    convert_node_aux sc e = FoldResult.value (Value.obj d) := by
  rw [convert_node_aux]
  rw [h, hcc]

theorem convert_node_aux_parent_none (sc : String → String) (e : Element)
    (h : scan_xml_node e = XMLNodeType.Parent)
    (hcc : convertChildren sc e.children (attrsToObj sc e.attributes) [] = none) :
    convert_node_aux sc e = FoldResult.panic := by
  rw [convert_node_aux]
  rw [h, hcc]

theorem convert_node_aux_ne_panic_bound (sc : String → String) :
    ∀ N : ℕ, ∀ e : Element, sizeOf e < N → convert_node_aux sc e ≠ FoldResult.panic := by
  intro N
  induction N with
  | zero =>
    intro e he
    omega
  | succ n ih =>
    intro e he
    cases hscan : scan_xml_node e with
    | Empty => simp [convert_node_aux_empty sc e hscan]
    | SemiStructured => simp [convert_node_aux_semi sc e hscan]
    | Text => simp [convert_node_aux_text sc e hscan]
    | Attributes => simp [convert_node_aux_attributes sc e hscan]
    | TextAndAttributes => simp [convert_node_aux_text_and_attributes sc e hscan]
    | Parent =>
      have hnp : ∀ c ∈ e.children, convert_node_aux sc c ≠ FoldResult.panic := by
        intro c hc
        have h1 := sizeOf_lt_of_mem_children c e hc
        exact ih c (by omega)
      obtain ⟨d, hd, _⟩ := convertChildren_spec sc e.children (attrsToObj sc e.attributes) []
        hnp (by simp)
      simp [convert_node_aux_parent_some sc e d hscan hd]

theorem convert_node_aux_ne_panic (sc : String → String) (e : Element) :
    convert_node_aux sc e ≠ FoldResult.panic :=
  convert_node_aux_ne_panic_bound sc (sizeOf e + 1) e (by omega)

theorem convertChildren_all_dropped (sc : String → String) (cs : List Element) (data : Obj)
    (vec : List String) (h : ∀ c ∈ cs, convert_node_aux sc c = FoldResult.dropped) :
    convertChildren sc cs data vec = some data := by
  induction cs with
  | nil => exact convertChildren_nil sc data vec
  | cons c rest ih =>
    rw [convertChildren_cons_dropped sc c rest data vec (h c (List.mem_cons_self c rest))]
    exact ih (fun x hx => h x (List.mem_cons_of_mem c hx))

theorem childKey_ne_option (sc : String → String) (c : Element) : childKey sc c ≠ "option" := by
  unfold childKey
  by_cases h : sc c.name = "option"
  · rw [if_pos h]
    decide
  · rw [if_neg h]
    exact h

theorem childValues_option_nil (sc : String → String) (cs : List Element) :
    childValues sc cs "option" = [] := by
  induction cs with
  | nil => exact childValues_nil sc "option"
  | cons c rest ih =>
    cases hr : convert_node_aux sc c with
    | panic => rw [childValues_cons_panic sc c rest "option" hr]; exact ih
    | dropped => rw [childValues_cons_dropped sc c rest "option" hr]; exact ih
    | value v =>
      rw [childValues_cons_value sc c rest "option" v hr, if_neg (childKey_ne_option sc c)]
      exact ih

theorem parse_text_ne_arr (s : String) (l : List Value) : parse_text s ≠ Value.arr l := by
  unfold parse_text
  split
  · simp
  · split_ifs <;> simp

theorem getKV_foldl_attrs (sc : String → String) (attrs : List (String × String)) :
    ∀ (m : Obj) (n : String) (w : Value),
      (getKV m n = some w → ∃ s, w = parse_text s) →
      getKV (attrs.foldl (fun acc kv => insertKV acc (sc kv.1) (parse_text kv.2)) m) n = some w →
      ∃ s, w = parse_text s := by
  induction attrs with
  | nil =>
    intro m n w hm h
    exact hm h
  | cons a rest ih =>
    intro m n w hm h
    rw [List.foldl_cons] at h
    refine ih _ n w ?_ h
    intro hg
    rw [getKV_insertKV] at hg
    by_cases he : sc a.1 = n
    · rw [if_pos he] at hg
      exact ⟨a.2, (Option.some.inj hg).symm⟩
    · rw [if_neg he] at hg
      exact hm hg

theorem getKV_attrsToObj_parse_text (sc : String → String) (attrs : List (String × String))
    (n : String) (w : Value) (h : getKV (attrsToObj sc attrs) n = some w) :
    ∃ s, w = parse_text s :=
  getKV_foldl_attrs sc attrs [] n w (by simp [getKV]) h

theorem childValues_mem (sc : String → String) (cs : List Element) (c : Element) (v : Value)
    (hc : c ∈ cs) (hv : convert_node_aux sc c = FoldResult.value v) :
    v ∈ childValues sc cs (childKey sc c) := by
  unfold childValues
  refine List.mem_filterMap.mpr ⟨c, hc, ?_⟩
  rw [hv]
  simp


/-- C9: The conversion is total: for every element `convert_node_aux` never hits the
panicking `unwrap`s of the append path (whenever a name is in the `vectorized` set the
object maps it to an array), and `node2object` always returns a value. -/
theorem spec_conversion_total_no_panic (sc : String → String) (e : Element) :
    convert_node_aux sc e ≠ FoldResult.panic ∧ ∃ m, node2object sc e = some m := by
  refine ⟨convert_node_aux_ne_panic sc e, ?_⟩
  cases hr : convert_node_aux sc e with
  | panic => exact absurd hr (convert_node_aux_ne_panic sc e)
  | dropped => exact ⟨[(sc e.name, Value.null)], by simp [node2object, hr]⟩
  | value v => exact ⟨[(sc e.name, v)], by simp [node2object, hr]⟩

/-- C2 (amended): `convert_node_aux` returns `None` exactly when the element is
SemiStructured or Empty — the catch-all `_ => None` arm of the source `match` covers
both shapes, so a nested Empty child contributes no key in its parent's object (only a
root Empty element surfaces as `Null`, via `unwrap_or`). -/
theorem spec_dropped_iff_semistructured_or_empty (sc : String → String) (e : Element) :
    convert_node_aux sc e = FoldResult.dropped ↔
      (scan_xml_node e = XMLNodeType.SemiStructured ∨ scan_xml_node e = XMLNodeType.Empty) := by
  cases hscan : scan_xml_node e with
  | Empty => simp [convert_node_aux_empty sc e hscan]
  | SemiStructured => simp [convert_node_aux_semi sc e hscan]
  | Text => simp [convert_node_aux_text sc e hscan]
  | Attributes => simp [convert_node_aux_attributes sc e hscan]
  | TextAndAttributes => simp [convert_node_aux_text_and_attributes sc e hscan]
  | Parent =>
    obtain ⟨d, hd, _⟩ := convertChildren_spec sc e.children (attrsToObj sc e.attributes) []
      (fun c _ => convert_node_aux_ne_panic sc c) (by simp)
    simp [convert_node_aux_parent_some sc e d hscan hd]

/-- C2 counterexample: the Empty element `<e/>` is not SemiStructured, yet
`convert_node_aux` returns `None` (not `Some(Null)` as the claim states); the root
still reads `null` only because of `unwrap_or`. -/
theorem spec_dropped_counterexample_empty :
    convert_node_aux id exEmpty = FoldResult.dropped ∧
      scan_xml_node exEmpty = XMLNodeType.Empty ∧
      node2object id exEmpty = some [("e", Value.null)] := by
  have hscan : scan_xml_node exEmpty = XMLNodeType.Empty := by decide
  have hd := convert_node_aux_empty id exEmpty hscan
  refine ⟨hd, hscan, ?_⟩
  unfold node2object
  rw [hd]
  exact rfl

/-- C4: `node2object` returns an object with exactly one key, the normalized root
name, mapped to the fold's value, or to `Null` when the fold yields `None`. -/
theorem spec_root_single_key (sc : String → String) (e : Element) :
    ∃ v, node2object sc e = some [(sc e.name, v)] ∧
      (convert_node_aux sc e = FoldResult.dropped → v = Value.null) ∧
      (∀ w, convert_node_aux sc e = FoldResult.value w → v = w) := by
  cases hr : convert_node_aux sc e with
  | panic => exact absurd hr (convert_node_aux_ne_panic sc e)
  | dropped =>
    exact ⟨Value.null, by simp [node2object, hr], fun _ => rfl,
      fun w hw => FoldResult.noConfusion hw⟩
  | value v =>
    exact ⟨v, by simp [node2object, hr], fun hd => FoldResult.noConfusion hd,
      fun w hw => FoldResult.value.inj hw⟩

/-- C1 (amended): In a Parent fold every child whose recursive fold yields a value —
that is, every child that is neither SemiStructured nor Empty, since the source's
catch-all `_ => None` arm drops both — contributes that value, under its normalized
(and possibly option-remapped) name, to an array holding the folded values of all
such children sharing the key in original sibling order; a child-derived key is never
mapped to a bare value, even when it occurs exactly once.  Dropped children
(SemiStructured or Empty) contribute nothing. -/
theorem spec_children_always_arrayified (sc : String → String) (e : Element)
    (h : scan_xml_node e = XMLNodeType.Parent) :
    ∃ d, convert_node_aux sc e = FoldResult.value (Value.obj d) ∧
      (∀ c ∈ e.children, ∀ v, convert_node_aux sc c = FoldResult.value v →
        v ∈ childValues sc e.children (childKey sc c) ∧
        getKV d (childKey sc c) =
          some (Value.arr (childValues sc e.children (childKey sc c)))) ∧
      ∀ n, childValues sc e.children n ≠ [] →
        getKV d n = some (Value.arr (childValues sc e.children n)) := by
  obtain ⟨d, hd, _, _, P3⟩ := convertChildren_spec sc e.children (attrsToObj sc e.attributes) []
    (fun c _ => convert_node_aux_ne_panic sc c) (by simp)
  refine ⟨d, convert_node_aux_parent_some sc e d h hd, ?_,
    fun n hn => P3 n (List.not_mem_nil n) hn⟩
  intro c hc v hv
  have hmem := childValues_mem sc e.children c v hc hv
  exact ⟨hmem, P3 _ (List.not_mem_nil _) (List.ne_nil_of_mem hmem)⟩

/-- C1 counterexample: the Empty child `b` of `exEmptyChildParent` is not
SemiStructured, yet the fold drops it and the parent folds to the empty object — no
key `b`, no one-element array, refuting the claim for every non-SemiStructured
child. -/
theorem spec_children_always_arrayified_counterexample :
    scan_xml_node exEmptyChildParent = XMLNodeType.Parent ∧
      scan_xml_node exEmptyChild ≠ XMLNodeType.SemiStructured ∧
      convert_node_aux id exEmptyChild = FoldResult.dropped ∧
      convert_node_aux id exEmptyChildParent = FoldResult.value (Value.obj []) := by
  have hch : convert_node_aux id exEmptyChild = FoldResult.dropped :=
    convert_node_aux_empty id exEmptyChild (by decide)
  have hcc : convertChildren id exEmptyChildParent.children
      (attrsToObj id exEmptyChildParent.attributes) [] =
      some (attrsToObj id exEmptyChildParent.attributes) := by
    apply convertChildren_all_dropped
    intro c hc
    have hce : c = exEmptyChild := by
      simpa [exEmptyChildParent, Element.children] using hc
    rw [hce]
    exact hch
  refine ⟨by decide, by decide, hch, ?_⟩
  rw [convert_node_aux_parent_some id exEmptyChildParent
    (attrsToObj id exEmptyChildParent.attributes) (by decide) hcc]
  exact rfl

/-- C1 witness: the `b, b, c` example is a Parent, the amended theorem applies to it,
and its `b` values are `[x, y]` in sibling order while `c` gets the one-element
`[z]`. -/
theorem spec_children_always_arrayified_witness :
    scan_xml_node exArrayify = XMLNodeType.Parent ∧
      childValues id exArrayify.children "b" = [Value.str "x", Value.str "y"] ∧
      childValues id exArrayify.children "c" = [Value.str "z"] ∧
      ∃ d, convert_node_aux id exArrayify = FoldResult.value (Value.obj d) ∧
        (∀ c ∈ exArrayify.children, ∀ v, convert_node_aux id c = FoldResult.value v →
          v ∈ childValues id exArrayify.children (childKey id c) ∧
          getKV d (childKey id c) =
            some (Value.arr (childValues id exArrayify.children (childKey id c)))) ∧
        ∀ n, childValues id exArrayify.children n ≠ [] →
          getKV d n = some (Value.arr (childValues id exArrayify.children n)) := by
  have hb1 : convert_node_aux id (textElem "b" "x") = FoldResult.value (Value.str "x") := by
    rw [convert_node_aux_text id (textElem "b" "x") (by decide)]
    exact rfl
  have hb2 : convert_node_aux id (textElem "b" "y") = FoldResult.value (Value.str "y") := by
    rw [convert_node_aux_text id (textElem "b" "y") (by decide)]
    exact rfl
  have hc1 : convert_node_aux id (textElem "c" "z") = FoldResult.value (Value.str "z") := by
    rw [convert_node_aux_text id (textElem "c" "z") (by decide)]
    exact rfl
  have hvb : childValues id exArrayify.children "b" = [Value.str "x", Value.str "y"] := by
    show childValues id [textElem "b" "x", textElem "b" "y", textElem "c" "z"] "b" = _
    rw [childValues_cons_value id (textElem "b" "x") [textElem "b" "y", textElem "c" "z"] "b"
      (Value.str "x") hb1, if_pos (by decide : childKey id (textElem "b" "x") = "b")]
    rw [childValues_cons_value id (textElem "b" "y") [textElem "c" "z"] "b"
      (Value.str "y") hb2, if_pos (by decide : childKey id (textElem "b" "y") = "b")]
    rw [childValues_cons_value id (textElem "c" "z") [] "b" (Value.str "z") hc1,
      if_neg (by decide : ¬childKey id (textElem "c" "z") = "b"), childValues_nil]
  have hvc : childValues id exArrayify.children "c" = [Value.str "z"] := by
    show childValues id [textElem "b" "x", textElem "b" "y", textElem "c" "z"] "c" = _
    rw [childValues_cons_value id (textElem "b" "x") [textElem "b" "y", textElem "c" "z"] "c"
      (Value.str "x") hb1, if_neg (by decide : ¬childKey id (textElem "b" "x") = "c")]
    rw [childValues_cons_value id (textElem "b" "y") [textElem "c" "z"] "c"
      (Value.str "y") hb2, if_neg (by decide : ¬childKey id (textElem "b" "y") = "c")]
    rw [childValues_cons_value id (textElem "c" "z") [] "c" (Value.str "z") hc1,
      if_pos (by decide : childKey id (textElem "c" "z") = "c"), childValues_nil]
  exact ⟨by decide, hvb, hvc, spec_children_always_arrayified id exArrayify (by decide)⟩

/-- C5: A Parent element always folds to `Some(Object(..))`, never `None` and never
`Null`; with no attributes and every child filtered out as SemiStructured the result
is the empty object. -/
theorem spec_parent_always_object (sc : String → String) (e : Element)
    (h : scan_xml_node e = XMLNodeType.Parent) :
    ∃ d, convert_node_aux sc e = FoldResult.value (Value.obj d) ∧
      (e.attributes = [] →
        (∀ c ∈ e.children, convert_node_aux sc c = FoldResult.dropped) → d = []) := by
  obtain ⟨d, hd, _⟩ := convertChildren_spec sc e.children (attrsToObj sc e.attributes) []
    (fun c _ => convert_node_aux_ne_panic sc c) (by simp)
  refine ⟨d, convert_node_aux_parent_some sc e d h hd, fun hattrs hdrop => ?_⟩
  have h2 := convertChildren_all_dropped sc e.children (attrsToObj sc e.attributes) [] hdrop
  have h3 : d = attrsToObj sc e.attributes := Option.some.inj (hd.symm.trans h2)
  rw [h3, hattrs]
  rfl

/-- C5 witness: a Parent whose only child is SemiStructured and whose attribute map is
empty; the theorem applies to it. -/
theorem spec_parent_always_object_witness :
    scan_xml_node exFiltered = XMLNodeType.Parent ∧
      ∃ d, convert_node_aux id exFiltered = FoldResult.value (Value.obj d) ∧
        (exFiltered.attributes = [] →
          (∀ c ∈ exFiltered.children, convert_node_aux id c = FoldResult.dropped) → d = []) :=
  ⟨by decide, spec_parent_always_object id exFiltered (by decide)⟩


/-- C6: A TextAndAttributes element folds to an object holding one entry per attribute
(snake-cased name, scalar-inferred value) plus a final entry under the literal key
`"text"` holding the inferred assembled text/CDATA; the text entry is inserted after
the attributes, so an attribute normalizing to `"text"` is overwritten by it. -/
theorem spec_text_overwrites_attribute (sc : String → String) (e : Element)
    (h : scan_xml_node e = XMLNodeType.TextAndAttributes) :
    ∃ d, convert_node_aux sc e = FoldResult.value (Value.obj d) ∧
      getKV d "text" = some (parse_text_contents e) ∧
      ∀ n, n ≠ "text" → getKV d n = getKV (attrsToObj sc e.attributes) n := by
  refine ⟨insertKV (attrsToObj sc e.attributes) "text" (parse_text_contents e),
    convert_node_aux_text_and_attributes sc e h, ?_, ?_⟩
  · rw [getKV_insertKV]
    simp
  · intro n hn
    rw [getKV_insertKV, if_neg (fun hh => hn hh.symm)]

/-- C6 witness: `exTextAttrs` (text plus an attribute literally named `text`) is
TextAndAttributes and the theorem applies to it. -/
theorem spec_text_overwrites_attribute_witness :
    scan_xml_node exTextAttrs = XMLNodeType.TextAndAttributes ∧
      ∃ d, convert_node_aux id exTextAttrs = FoldResult.value (Value.obj d) ∧
        getKV d "text" = some (parse_text_contents exTextAttrs) ∧
        ∀ n, n ≠ "text" → getKV d n = getKV (attrsToObj id exTextAttrs.attributes) n :=
  ⟨by decide, spec_text_overwrites_attribute id exTextAttrs (by decide)⟩

/-- C7: The string handed to Scalar Inference is the direct text immediately followed
by the CDATA content with no separator, a missing part contributing the empty string;
a Text element folds to Scalar Inference of exactly that concatenation. -/
theorem spec_text_content_assembly (sc : String → String) (e : Element) :
    parse_text_contents e = parse_text ((e.text.getD "") ++ (e.cdata.getD "")) ∧
      (scan_xml_node e = XMLNodeType.Text →
        convert_node_aux sc e =
          FoldResult.value (parse_text ((e.text.getD "") ++ (e.cdata.getD "")))) :=
  ⟨rfl, fun h => convert_node_aux_text sc e h⟩

/-- C7 witness: an element with both direct text `"ab"` and CDATA `"cd"` is Text and
its folded value is Scalar Inference of `"abcd"`. -/
theorem spec_text_content_assembly_witness :
    scan_xml_node exTextCData = XMLNodeType.Text ∧
      convert_node_aux id exTextCData =
        FoldResult.value (parse_text ((exTextCData.text.getD "") ++
          (exTextCData.cdata.getD ""))) ∧
      parse_text ((exTextCData.text.getD "") ++ (exTextCData.cdata.getD "")) =
        Value.str "abcd" :=
  ⟨by decide, (spec_text_content_assembly id exTextCData).2 (by decide), rfl⟩

/-- C8: During a Parent fold a child whose snake-cased name is exactly `"option"`
contributes under the key `"option_tag"` instead, other names are kept, no child ever
contributes under `"option"`, and the remapped values are still wrapped in an array. -/
theorem spec_option_renamed_option_tag (sc : String → String) (e : Element)
    (h : scan_xml_node e = XMLNodeType.Parent) :
    (∀ c : Element, sc c.name = "option" → childKey sc c = "option_tag") ∧
    (∀ c : Element, sc c.name ≠ "option" → childKey sc c = sc c.name) ∧
    childValues sc e.children "option" = [] ∧
    ∃ d, convert_node_aux sc e = FoldResult.value (Value.obj d) ∧
      (childValues sc e.children "option_tag" ≠ [] →
        getKV d "option_tag" = some (Value.arr (childValues sc e.children "option_tag"))) := by
  refine ⟨fun c hc => by simp [childKey, hc], fun c hc => by simp [childKey, hc],
    childValues_option_nil sc e.children, ?_⟩
  obtain ⟨d, hd, _, _, P3⟩ := convertChildren_spec sc e.children (attrsToObj sc e.attributes) []
    (fun c _ => convert_node_aux_ne_panic sc c) (by simp)
  exact ⟨d, convert_node_aux_parent_some sc e d h hd,
    fun hne => P3 "option_tag" (List.not_mem_nil _) hne⟩

/-- C8 witness: a parent with a single child named `option` is a Parent and the
theorem applies to it. -/
theorem spec_option_renamed_option_tag_witness :
    scan_xml_node exOption = XMLNodeType.Parent ∧
      childValues id exOption.children "option_tag" = [Value.str "on"] ∧
      ((∀ c : Element, id c.name = "option" → childKey id c = "option_tag") ∧
      (∀ c : Element, id c.name ≠ "option" → childKey id c = id c.name) ∧
      childValues id exOption.children "option" = [] ∧
      ∃ d, convert_node_aux id exOption = FoldResult.value (Value.obj d) ∧
        (childValues id exOption.children "option_tag" ≠ [] →
          getKV d "option_tag" =
            some (Value.arr (childValues id exOption.children "option_tag")))) :=
  by
  have hch : convert_node_aux id (textElem "option" "on") =
      FoldResult.value (Value.str "on") := by
    rw [convert_node_aux_text id (textElem "option" "on") (by decide)]
    exact rfl
  have hv : childValues id exOption.children "option_tag" = [Value.str "on"] := by
    show childValues id [textElem "option" "on"] "option_tag" = _
    rw [childValues_cons_value id (textElem "option" "on") [] "option_tag"
      (Value.str "on") hch,
      if_pos (by decide : childKey id (textElem "option" "on") = "option_tag"),
      childValues_nil]
  exact ⟨by decide, hv, spec_option_renamed_option_tag id exOption (by decide)⟩

/-- C10 (amended): In a Parent fold an attribute-derived entry is overwritten exactly
when some child that folds to a value shares its key: then the key holds the array of
those child values — never the attribute's scalar, since scalar inference cannot
produce an array — while a collision only with dropped children (SemiStructured or
Empty) leaves the attribute's inferred scalar in place unchanged. -/
theorem spec_attribute_shadowed_by_child (sc : String → String) (e : Element)
    (n : String) (w : Value) (h : scan_xml_node e = XMLNodeType.Parent)
    (ha : getKV (attrsToObj sc e.attributes) n = some w) :
    ∃ d, convert_node_aux sc e = FoldResult.value (Value.obj d) ∧
      (childValues sc e.children n ≠ [] →
        getKV d n = some (Value.arr (childValues sc e.children n)) ∧
        ∀ l, w ≠ Value.arr l) ∧
      (childValues sc e.children n = [] → getKV d n = some w) := by
  obtain ⟨d, hd, _, P2, P3⟩ := convertChildren_spec sc e.children (attrsToObj sc e.attributes) []
    (fun c _ => convert_node_aux_ne_panic sc c) (by simp)
  refine ⟨d, convert_node_aux_parent_some sc e d h hd, fun hc => ?_,
    fun hc => by rw [P2 n (List.not_mem_nil n) hc]; exact ha⟩
  refine ⟨P3 n (List.not_mem_nil n) hc, ?_⟩
  obtain ⟨s, rfl⟩ := getKV_attrsToObj_parse_text sc e.attributes n w ha
  exact fun l => parse_text_ne_arr s l

/-- C10 counterexample: the attribute `b="w"` of `exShadowEmpty` collides with a
non-SemiStructured (Empty) child named `b`, yet the fold keeps the attribute's scalar
— the result is `{"b": "w"}`, not a one-element array — refuting the claim for every
non-SemiStructured colliding child. -/
theorem spec_attribute_shadowed_counterexample :
    scan_xml_node exShadowEmpty = XMLNodeType.Parent ∧
      scan_xml_node exEmptyChild ≠ XMLNodeType.SemiStructured ∧
      getKV (attrsToObj id exShadowEmpty.attributes) "b" = some (Value.str "w") ∧
      convert_node_aux id exShadowEmpty =
        FoldResult.value (Value.obj [("b", Value.str "w")]) := by
  have hch : convert_node_aux id exEmptyChild = FoldResult.dropped :=
    convert_node_aux_empty id exEmptyChild (by decide)
  have hcc : convertChildren id exShadowEmpty.children
      (attrsToObj id exShadowEmpty.attributes) [] =
      some (attrsToObj id exShadowEmpty.attributes) := by
    apply convertChildren_all_dropped
    intro c hc
    have hce : c = exEmptyChild := by
      simpa [exShadowEmpty, Element.children] using hc
    rw [hce]
    exact hch
  refine ⟨by decide, by decide, rfl, ?_⟩
  rw [convert_node_aux_parent_some id exShadowEmpty
    (attrsToObj id exShadowEmpty.attributes) (by decide) hcc]
  exact rfl

/-- C10 witness: in `exShadow` the attribute `b="w"` collides with the (surviving)
text child named `b`; the amended theorem applies, and since the child values are the
non-empty `[x]` the key holds that array instead of the attribute's scalar. -/
theorem spec_attribute_shadowed_by_child_witness :
    childValues id exShadow.children "b" = [Value.str "x"] ∧
      ∃ d, convert_node_aux id exShadow = FoldResult.value (Value.obj d) ∧
        (childValues id exShadow.children "b" ≠ [] →
          getKV d "b" = some (Value.arr (childValues id exShadow.children "b")) ∧
          ∀ l, parse_text "w" ≠ Value.arr l) ∧
        (childValues id exShadow.children "b" = [] →
          getKV d "b" = some (parse_text "w")) := by
  have hchild : convert_node_aux id (textElem "b" "x") =
      FoldResult.value (Value.str "x") := by
    rw [convert_node_aux_text id (textElem "b" "x") (by decide)]
    exact rfl
  have hcv : childValues id exShadow.children "b" = [Value.str "x"] := by
    show childValues id [textElem "b" "x"] "b" = [Value.str "x"]
    rw [childValues_cons_value id (textElem "b" "x") [] "b" (Value.str "x") hchild]
    rw [if_pos (by decide : childKey id (textElem "b" "x") = "b"), childValues_nil]
  exact ⟨hcv,
    spec_attribute_shadowed_by_child id exShadow "b" (parse_text "w") (by decide) rfl⟩

/-- C3: `parse_text` tries float first and emits `Number` only for finite parses,
then exact lowercase `"true"`/`"false"` matching for `Bool`, then falls back to the
unchanged string; non-finite parses such as `"NaN"` and `"inf"` are never `Number`. -/
theorem spec_parse_text_inference_order :
    (∀ s q, parseF64 s = some (F64.finite q) → parse_text s = Value.number q) ∧
    (∀ s, (∀ q, parseF64 s ≠ some (F64.finite q)) → s = "true" →
      parse_text s = Value.bool true) ∧
    (∀ s, (∀ q, parseF64 s ≠ some (F64.finite q)) → s = "false" →
      parse_text s = Value.bool false) ∧
    (∀ s, (∀ q, parseF64 s ≠ some (F64.finite q)) → s ≠ "true" → s ≠ "false" →
      parse_text s = Value.str s) ∧
    parseF64 "NaN" = some F64.nonfinite ∧
    parseF64 "inf" = some F64.nonfinite ∧
    parse_text "NaN" = Value.str "NaN" ∧
    parse_text "inf" = Value.str "inf" ∧
    parse_text "TRUE" = Value.str "TRUE" := by
  refine ⟨?_, ?_, ?_, ?_, by decide, by decide, rfl, rfl, rfl⟩
  · intro s q hq
    unfold parse_text
    rw [hq]
  · intro s hq hs
    unfold parse_text
    cases hp : parseF64 s with
    | none => simp [hs]
    | some f =>
      cases f with
      | finite q => exact absurd hp (hq q)
      | nonfinite => simp [hs]
  · intro s hq hs
    unfold parse_text
    cases hp : parseF64 s with
    | none => simp [hs]
    | some f =>
      cases f with
      | finite q => exact absurd hp (hq q)
      | nonfinite => simp [hs]
  · intro s hq h1 h2
    unfold parse_text
    cases hp : parseF64 s with
    | none => simp [h1, h2]
    | some f =>
      cases f with
      | finite q => exact absurd hp (hq q)
      | nonfinite => simp [h1, h2]

/-- C3 witness: `"9000"` parses as the finite double 9000 and is emitted as
`Number 9000` through the first clause of the theorem. -/
theorem spec_parse_text_inference_order_witness :
    parseF64 "9000" = some (F64.finite 9000) ∧ parse_text "9000" = Value.number 9000 := by
  have hdig : digitsToNat ['9', '0', '0', '0'] = 9000 := by decide
  have h1 : parseF64 "9000" = some (F64.finite 9000) := by
    norm_num +decide [parseF64, parseMantissa, splitFirst, asciiLower, mkF64,
      f64OverflowBound, hdig]
  exact ⟨h1, spec_parse_text_inference_order.1 "9000" 9000 h1⟩


/-- C2 (amended) witness: the SemiStructured element `exSemi` is dropped, through the
right-to-left direction of the amended equivalence. -/
theorem spec_dropped_iff_witness :
    convert_node_aux id exSemi = FoldResult.dropped :=
  (spec_dropped_iff_semistructured_or_empty id exSemi).mpr (Or.inl (by decide))

/-- C4 witness: the single-key wrapping instantiated at `<player>Kolya</player>`. -/
theorem spec_root_single_key_witness :
    ∃ v, node2object id (textElem "player" "Kolya") = some [("player", v)] ∧
      (convert_node_aux id (textElem "player" "Kolya") = FoldResult.dropped →
        v = Value.null) ∧
      (∀ w, convert_node_aux id (textElem "player" "Kolya") = FoldResult.value w →
        v = w) :=
  spec_root_single_key id (textElem "player" "Kolya")

/-- C9 witness: totality instantiated at the attribute/child collision example. -/
theorem spec_conversion_total_no_panic_witness :
    convert_node_aux id exShadow ≠ FoldResult.panic ∧
      ∃ m, node2object id exShadow = some m :=
  spec_conversion_total_no_panic id exShadow

end Node2Object
